import Mathlib

/-!
Shallow embedding of the bridge chat server (src/server.js) and the
handshake-wait logic of the clients (src/client.js and the second client
variant in src/unnamed/part_000).

Server state: a `users` registry (array of {id, username, rooms}), a `rooms`
directory (array of {name, createdBy}), and the transport-level room
membership of each live connection (socket.io `socket.rooms`).  Each
socket.io event handler of server.js is translated into a Lean function
returning the new state together with the list of emitted deliveries; a
handler that can throw a TypeError (indexing `users[-1]`) returns `Option`.
-/

namespace Bridge

/-- The payload of a `message` event: `{type, username?, from?, to?, message}`.
`chat` and `emote` originate from clients via `send`; `notice` and `tell`
are produced by the server. -/
inductive MsgData where
  | chat (username message : String)
  | notice (message : String)
  | tell (fromU toU message : String)
  | emote (message : String)
deriving Repr, DecidableEq

/-- A wire event emitted by the server: a `message`, a `handshake` response
`{type, reason?}`, or a `username` response `{type, username?}`. -/
inductive WireEvent where
  | message (data : MsgData)
  | handshake (type : String) (reason : Option String)
  | username (type : String) (username : Option String)
deriving Repr, DecidableEq

/-- One emission `mainSocket.to(room).emit(...)`: every connection that is a
member of `room` receives `event`. -/
structure Delivery where
  room : String
  event : WireEvent
deriving Repr, DecidableEq

/-- An entry of the server's `users` array: `{id, username, rooms}` where
`rooms` is the snapshot of the socket's room list stored by the server. -/
structure User where
  id : String
  username : String
  rooms : List String
deriving Repr, DecidableEq

/-- An entry of the server's `rooms` array: `{name, createdBy}`. -/
structure Room where
  name : String
  createdBy : String
deriving Repr, DecidableEq

/-- Transport-level view of one live socket: its id, the rooms it is
currently joined to (`socket.rooms`, in insertion order: the private id-room
first), and whether its one-shot `socket.once('handshake')` listener has
already fired. -/
structure Conn where
  id : String
  rooms : List String
  handshook : Bool
deriving Repr, DecidableEq

/-- The whole server state: the `users` registry, the `rooms` directory and
the live connections. -/
structure ServerState where
  users : List User
  rooms : List Room
  conns : List Conn
deriving Repr, DecidableEq

/-- Initial server state: no users, the built-in `default` room, no
connections (server.js lines 22-25). -/
def initState : ServerState :=
  { users := [], rooms := [{ name := "default", createdBy := "system" }], conns := [] }

/-- `socket.join(room)`: add the room to the socket's membership if absent. -/
def Conn.joinRoom (c : Conn) (room : String) : Conn :=
  if c.rooms.contains room then c else { c with rooms := c.rooms ++ [room] }

/-- `handleSend`: emit the payload to every room the sender has joined,
skipping the sender's own private id-room (server.js lines 27-37). -/
def handleSend (currentSocket : Conn) (data : MsgData) : List Delivery :=
  (currentSocket.rooms.filter (fun room => room != currentSocket.id)).map
    (fun room => { room := room, event := .message data })

/-- `handleHandshake` (server.js lines 39-80): on `first:true`, register and
confirm if the username is free, else deny with reason
"Username already exists"; on `first:false`, register and confirm
unconditionally. -/
def handleHandshake (s : ServerState) (currentSocket : Conn) (first : Bool)
    (username : String) : ServerState × List Delivery :=
  let query := s.users.find? (fun user => user.username == username)
  if first then
    if query.isNone then
      ({ s with users := s.users ++
          [{ id := currentSocket.id, username := username, rooms := currentSocket.rooms }] },
       [{ room := currentSocket.id, event := .handshake "confirm" none }] ++
        handleSend currentSocket (.notice s!"[{username}] has joined [#default]!"))
    else
      (s, [{ room := currentSocket.id,
             event := .handshake "denied" (some "Username already exists") }])
  else
    ({ s with users := s.users ++
        [{ id := currentSocket.id, username := username, rooms := currentSocket.rooms }] },
     [{ room := currentSocket.id, event := .handshake "confirm" none }])

/-- `handleWhisper` (server.js lines 82-102): unicast the tell to the target
user's id-room if the username resolves, otherwise a notice back to the
sender's id-room. -/
def handleWhisper (s : ServerState) (currentSocket : Conn)
    (fromU toU message : String) : List Delivery :=
  match s.users.find? (fun user => user.username == toU) with
  | some query => [{ room := query.id, event := .message (.tell fromU toU message) }]
  | none => [{ room := currentSocket.id,
               event := .message (.notice s!"No user found with the username [{toU}]!") }]

/-- `handleChangeRoom` (server.js lines 104-128): leave all rooms, rejoin the
private id-room, join the target room, broadcast a join notice to it and
update the registry entry.  `users[userIndex].username` throws when
`findIndex` returned -1, modelled by `none`. -/
def handleChangeRoom (s : ServerState) (currentSocket : Conn) (room : String) :
    Option (ServerState × Conn × List Delivery) :=
  let conn := (({ currentSocket with rooms := [] }).joinRoom currentSocket.id).joinRoom room
  match s.users.findIdx? (fun user => user.id == currentSocket.id) with
  | none => none
  | some userIndex =>
    match s.users[userIndex]? with
    | none => none
    | some u =>
      let msg := s!"[{u.username}] has joined [#{room}]!"
      some ({ s with users := s.users.set userIndex { u with rooms := conn.rooms } },
            conn, [{ room := room, event := .message (.notice msg) }])

/-- `handleNewRoom` (server.js lines 130-144): append the room to the
directory with the requester as creator, notify the requester, then change
into it. -/
def handleNewRoom (s : ServerState) (currentSocket : Conn) (room : String) :
    Option (ServerState × Conn × List Delivery) :=
  let s1 := { s with rooms := s.rooms ++ [{ name := room, createdBy := currentSocket.id }] }
  let d1 : Delivery :=
    { room := currentSocket.id,
      event := .message (.notice s!"New room is created by the name [#{room}]!") }
  (handleChangeRoom s1 currentSocket room).map (fun r => (r.1, r.2.1, d1 :: r.2.2))

/-- `handleChangeUsername` (server.js lines 146-163): broadcast a rename
notice to the caller's rooms, update the registry entry, confirm to the
caller.  Throws (`none`) when the caller has no registry entry. -/
def handleChangeUsername (s : ServerState) (currentSocket : Conn) (username : String) :
    Option (ServerState × List Delivery) :=
  match s.users.findIdx? (fun user => user.id == currentSocket.id) with
  | none => none
  | some userIndex =>
    match s.users[userIndex]? with
    | none => none
    | some u =>
      let msg := s!"[{u.username}] change their name to [{username}]!"
      some ({ s with users := s.users.set userIndex { u with username := username } },
            handleSend currentSocket (.notice msg) ++
              [{ room := currentSocket.id, event := .username "confirm" (some username) }])

/-- `handleListUsers` (server.js lines 165-182): one notice line per
(user, room) pair, skipping each user's own id-room, all unicast to the
requester's id-room. -/
def handleListUsers (s : ServerState) (currentSocket : Conn) : List Delivery :=
  s.users.flatMap (fun user =>
    (user.rooms.filter (fun room => room != user.id)).map (fun room =>
      { room := currentSocket.id,
        event := .message (.notice s!"({user.id}) => <{user.username}> @ [#{room}]") }))

/-- The `socket.on('room')` listener (server.js lines 207-218): a falsy
(`none` or empty) room argument means `default`; route to `handleChangeRoom`
or `handleNewRoom` depending on the directory. -/
def targetRoomOf (data : Option String) : String :=
  match data with
  | none => "default"
  | some r => if r == "" then "default" else r

def roomListener (s : ServerState) (currentSocket : Conn) (data : Option String) :
    Option (ServerState × Conn × List Delivery) :=
  let targetRoom := targetRoomOf data
  if s.rooms.any (fun room => room.name == targetRoom) then
    handleChangeRoom s currentSocket targetRoom
  else
    handleNewRoom s currentSocket targetRoom

/-- The `socket.on('username')` listener (server.js lines 221-232): deny when
any user (the caller included) already holds the name, else rename. -/
def usernameListener (s : ServerState) (currentSocket : Conn) (username : String) :
    Option (ServerState × List Delivery) :=
  match s.users.find? (fun user => username == user.username) with
  | none => handleChangeUsername s currentSocket username
  | some _ =>
    some (s, [{ room := currentSocket.id, event := .username "denied" none },
              { room := currentSocket.id,
                event := .message (.notice s!"[{username}] is currently used by another user!") }])

/-- The inbound events of the server's connection loop
(server.js lines 187-243). -/
inductive Event where
  | connect (cid : String)
  | handshake (cid : String) (first : Bool) (username : String)
  | send (cid : String) (data : MsgData)
  | whisper (cid : String) (fromU toU message : String)
  | room (cid : String) (data : Option String)
  | username (cid : String) (username : String)
  | listUsers (cid : String)
  | disconnect (cid : String)
deriving Repr, DecidableEq

def ServerState.findConn (s : ServerState) (cid : String) : Option Conn :=
  s.conns.find? (fun c => c.id == cid)

def ServerState.setConn (s : ServerState) (c : Conn) : ServerState :=
  { s with conns := s.conns.map (fun x => if x.id == c.id then c else x) }

/-- One server step: dispatch an event to its handler.  A `connect` joins the
socket to its id-room and `default` (server.js line 189 plus the implicit
id-room join); events for unknown connections are ignored; `handshake` is a
`socket.once` listener so it fires at most once per connection; a handler
that throws yields `none` (the uncaught exception escapes the event loop). -/
def stepD (s : ServerState) : Event → Option (ServerState × List Delivery)
  | .connect cid =>
    if s.conns.any (fun c => c.id == cid) then some (s, [])
    else some ({ s with conns := s.conns ++
        [{ id := cid, rooms := [cid, "default"], handshook := false }] }, [])
  | .handshake cid first uname =>
    match s.findConn cid with
    | none => some (s, [])
    | some c =>
      if c.handshook then some (s, [])
      else
        let r := handleHandshake s c first uname
        some (r.1.setConn { c with handshook := true }, r.2)
  | .send cid data =>
    match s.findConn cid with
    | none => some (s, [])
    | some c => some (s, handleSend c data)
  | .whisper cid fromU toU message =>
    match s.findConn cid with
    | none => some (s, [])
    | some c => some (s, handleWhisper s c fromU toU message)
  | .room cid data =>
    match s.findConn cid with
    | none => some (s, [])
    | some c =>
      (roomListener s c data).map (fun r => (r.1.setConn r.2.1, r.2.2))
  | .username cid uname =>
    match s.findConn cid with
    | none => some (s, [])
    | some c => usernameListener s c uname
  | .listUsers cid =>
    match s.findConn cid with
    | none => some (s, [])
    | some c => some (s, handleListUsers s c)
  | .disconnect cid =>
    some ({ s with users := s.users.filter (fun user => user.id != cid),
                   conns := s.conns.filter (fun c => c.id != cid) }, [])

def step (s : ServerState) (e : Event) : Option ServerState :=
  (stepD s e).map (fun r => r.1)

/-- Run a sequence of inbound events from a state; `none` once a handler
throws. -/
def runEvents (s : ServerState) : List Event → Option ServerState
  | [] => some s
  | e :: es =>
    match step s e with
    | none => none
    | some s' => runEvents s' es

/-- The username-uniqueness predicate on the registry: no two registered
users share a username (case-sensitive). -/
def usernamesUnique (s : ServerState) : Prop :=
  (s.users.map (fun user => user.username)).Nodup

instance (s : ServerState) : Decidable (usernamesUnique s) := by
  unfold usernamesUnique; infer_instance

/-- A delivery list reaches connection `c` when some delivery is addressed to
a room `c` is a member of (socket.io delivers `to(room).emit` to every member
of `room`). -/
def deliveredTo (ds : List Delivery) (c : Conn) : Bool :=
  ds.any (fun d => c.rooms.contains d.room)

/-- The client's `message` listener (client.js lines 290-302 / part_000
lines 586-602): what a received `message` event makes the client print, given
its local `username`.  `none` means the message is suppressed. -/
def clientDisplayMessage (localUsername : String) (data : MsgData) : Option String :=
  match data with
  | .chat username message =>
    if username != localUsername then some (s!"<{username}> " ++ message) else none
  | .notice message => some message
  | .tell fromU toU message =>
    if toU == localUsername then some (s!"[{fromU} -> {toU}]" ++ message) else none
  | .emote message => some message

/-- Outcome of the client's wait for the initial handshake response. -/
inductive HsWaitOutcome where
  | proceeds
  | exits (msg : String)
  | waitsForever
deriving Repr, DecidableEq

/-- The client's `socket.once('handshake')` branch (client.js lines 134-147):
a non-`confirm` response prints a failure message and exits; a `confirm`
response lets the session proceed. -/
def clientHandshakeBranch (type : String) : HsWaitOutcome :=
  if type != "confirm" then .exits "Handshake with the server was unsuccessful!"
  else .proceeds

/-- setTimeout/clearTimeout semantics of the initial-handshake wait: with an
optional timeout of `timeout` ms and a response arriving at time `t` (or
never, `none`), the client proceeds or exits on a response that beats the
timeout, exits with "Handshake timed out!" when the timeout fires first, and
waits forever when there is neither a response nor a timeout. -/
def handshakeWait (timeout : Option Nat) (response : Option (Nat × String)) :
    HsWaitOutcome :=
  match timeout, response with
  | none, none => .waitsForever
  | none, some (_, type) => clientHandshakeBranch type
  | some _, none => .exits "Handshake timed out!"
  | some d, some (t, type) =>
    if t < d then clientHandshakeBranch type else .exits "Handshake timed out!"

/-- src/client.js registers no timeout around the handshake wait
(lines 113-147: `socket.emit('handshake', ...)` with no `setTimeout`). -/
def clientJsHandshakeTimeout : Option Nat := none

/-- The second client variant in src/unnamed/part_000 (lines 386-411) arms a
5000 ms `setTimeout` that prints "Handshake timed out!" and exits, cleared
when the handshake response arrives. -/
def part000HandshakeTimeout : Option Nat := some 5000

/-! Helper lemmas about the registry's username list. -/

lemma set_self_of_getElem? {α : Type} (l : List α) (i : Nat) (a : α)
    (h : l[i]? = some a) : l.set i a = l := by
  induction l generalizing i with
  | nil => simp at h
  | cons b t ih =>
    cases i with
    | zero => simp_all
    | succ j =>
      simp only [List.getElem?_cons_succ] at h
      simp [ih j h]

lemma nodup_set_of_not_mem {α : Type} {l : List α} (h : l.Nodup) {a : α}
    (ha : a ∉ l) (i : Nat) : (l.set i a).Nodup := by
  induction l generalizing i with
  | nil => simp
  | cons b t ih =>
    rcases List.nodup_cons.mp h with ⟨hb, ht⟩
    cases i with
    | zero =>
      refine List.nodup_cons.mpr ⟨?_, ht⟩
      intro hmem
      exact ha (List.mem_cons_of_mem _ hmem)
    | succ j =>
      refine List.nodup_cons.mpr ⟨?_, ih ht (fun hm => ha (List.mem_cons_of_mem _ hm)) j⟩
      intro hmem
      rcases List.mem_or_eq_of_mem_set hmem with hm | he
      · exact hb hm
      · exact ha (he ▸ List.mem_cons_self b t)

lemma usernames_set_rooms (l : List User) (i : Nat) (u : User)
    (h : l[i]? = some u) (r : List String) :
    (l.set i { u with rooms := r }).map (fun user => user.username) =
      l.map (fun user => user.username) := by
  rw [List.map_set]
  exact set_self_of_getElem? _ i _ (by rw [List.getElem?_map, h]; rfl)

lemma not_mem_usernames_of_find?_eq_none {l : List User} {uname : String}
    (h : l.find? (fun user => user.username == uname) = none) :
    uname ∉ l.map (fun user => user.username) := by
  intro hmem
  rcases List.mem_map.mp hmem with ⟨u, hu, he⟩
  have := List.find?_eq_none.mp h u hu
  simp [he] at this

lemma not_mem_usernames_of_find?_eq_none' {l : List User} {uname : String}
    (h : l.find? (fun user => uname == user.username) = none) :
    uname ∉ l.map (fun user => user.username) := by
  intro hmem
  rcases List.mem_map.mp hmem with ⟨u, hu, he⟩
  have := List.find?_eq_none.mp h u hu
  simp [he] at this

/-- `handleChangeRoom` never changes any username in the registry. -/
lemma changeRoom_usernames {s : ServerState} {c : Conn} {room : String}
    {s1 : ServerState} {c1 : Conn} {ds1 : List Delivery}
    (h : handleChangeRoom s c room = some (s1, c1, ds1)) :
    s1.users.map (fun user => user.username) = s.users.map (fun user => user.username) := by
  unfold handleChangeRoom at h
  cases hidx : s.users.findIdx? (fun user => user.id == c.id) with
  | none => simp [hidx] at h
  | some i =>
    simp only [hidx] at h
    cases hget : s.users[i]? with
    | none => simp [hget] at h
    | some u =>
      simp only [hget, Option.some.injEq, Prod.mk.injEq] at h
      obtain ⟨h1, -⟩ := h
      rw [← h1]
      exact usernames_set_rooms s.users i u hget _

/-- `handleNewRoom` never changes any username in the registry. -/
lemma newRoom_usernames {s : ServerState} {c : Conn} {room : String}
    {s1 : ServerState} {c1 : Conn} {ds1 : List Delivery}
    (h : handleNewRoom s c room = some (s1, c1, ds1)) :
    s1.users.map (fun user => user.username) = s.users.map (fun user => user.username) := by
  unfold handleNewRoom at h
  cases hr : handleChangeRoom
      { s with rooms := s.rooms ++ [{ name := room, createdBy := c.id }] } c room with
  | none => simp [hr] at h
  | some r =>
    obtain ⟨s2, c2, ds2⟩ := r
    simp only [hr, Option.map_some', Option.some.injEq, Prod.mk.injEq] at h
    obtain ⟨h1, -⟩ := h
    have h2 := changeRoom_usernames hr
    rw [← h1]
    exact h2

/-- The `room` listener never changes any username in the registry. -/
lemma roomListener_usernames {s : ServerState} {c : Conn} {data : Option String}
    {s1 : ServerState} {c1 : Conn} {ds1 : List Delivery}
    (h : roomListener s c data = some (s1, c1, ds1)) :
    s1.users.map (fun user => user.username) = s.users.map (fun user => user.username) := by
  simp only [roomListener] at h
  split at h
  · exact changeRoom_usernames h
  · exact newRoom_usernames h

/-- The `username` listener preserves username uniqueness: a rename only
succeeds when the requested name is held by nobody. -/
lemma usernameListener_unique {s : ServerState} {c : Conn} {uname : String}
    {s1 : ServerState} {ds1 : List Delivery}
    (hu : usernamesUnique s) (h : usernameListener s c uname = some (s1, ds1)) :
    usernamesUnique s1 := by
  unfold usernameListener handleChangeUsername at h
  cases hq : s.users.find? (fun user => uname == user.username) with
  | none =>
    simp only [hq] at h
    cases hidx : s.users.findIdx? (fun user => user.id == c.id) with
    | none => simp [hidx] at h
    | some i =>
      simp only [hidx] at h
      cases hget : s.users[i]? with
      | none => simp [hget] at h
      | some u =>
        simp only [hget, Option.some.injEq, Prod.mk.injEq] at h
        obtain ⟨h1, -⟩ := h
        have hnm := not_mem_usernames_of_find?_eq_none' hq
        rw [← h1]
        simp only [usernamesUnique] at *
        rw [List.map_set]
        exact nodup_set_of_not_mem hu hnm i
  | some q =>
    simp only [hq, Option.some.injEq, Prod.mk.injEq] at h
    obtain ⟨h1, -⟩ := h
    exact h1 ▸ hu

/-- Username uniqueness is preserved by every dispatched event other than a
`first:false` handshake. -/
lemma stepD_preserves_unique {s s1 : ServerState} {ds : List Delivery} {e : Event}
    (hn : ∀ cid u, e ≠ .handshake cid false u)
    (hu : usernamesUnique s) (h : stepD s e = some (s1, ds)) : usernamesUnique s1 := by
  cases e with
  | connect cid =>
    simp only [stepD] at h
    split at h <;>
    · simp only [Option.some.injEq, Prod.mk.injEq] at h
      obtain ⟨h1, -⟩ := h
      rw [← h1]
      exact hu
  | handshake cid first uname =>
    cases first with
    | false => exact absurd rfl (hn cid uname)
    | true =>
      simp only [stepD] at h
      cases hc : s.findConn cid with
      | none =>
        simp only [hc, Option.some.injEq, Prod.mk.injEq] at h
        obtain ⟨h1, -⟩ := h
        exact h1 ▸ hu
      | some c =>
        simp only [hc] at h
        by_cases hh : c.handshook
        · simp only [hh, if_true] at h
          simp only [Option.some.injEq, Prod.mk.injEq] at h
          obtain ⟨h1, -⟩ := h
          exact h1 ▸ hu
        · simp only [hh, Bool.false_eq_true, if_false] at h
          unfold handleHandshake at h
          cases hq : s.users.find? (fun user => user.username == uname) with
          | none =>
            simp only [hq, Option.isNone_none, if_true, Option.some.injEq,
              Prod.mk.injEq] at h
            obtain ⟨h1, -⟩ := h
            rw [← h1]
            have hnm := not_mem_usernames_of_find?_eq_none hq
            simp only [usernamesUnique, ServerState.setConn, List.map_append,
              List.map_cons, List.map_nil] at *
            rw [List.nodup_append]
            refine ⟨hu, List.nodup_singleton _, ?_⟩
            intro x hx hx'
            simp only [List.mem_singleton] at hx'
            exact hnm (hx' ▸ hx)
          | some q =>
            simp only [hq, Option.isNone_some, Bool.false_eq_true, if_false,
              Option.some.injEq, Prod.mk.injEq] at h
            obtain ⟨h1, -⟩ := h
            rw [← h1]
            simpa [usernamesUnique, ServerState.setConn] using hu
  | send cid data =>
    simp only [stepD] at h
    cases hc : s.findConn cid <;>
    · simp only [hc, Option.some.injEq, Prod.mk.injEq] at h
      obtain ⟨h1, -⟩ := h
      exact h1 ▸ hu
  | whisper cid fromU toU message =>
    simp only [stepD] at h
    cases hc : s.findConn cid <;>
    · simp only [hc, Option.some.injEq, Prod.mk.injEq] at h
      obtain ⟨h1, -⟩ := h
      exact h1 ▸ hu
  | room cid data =>
    simp only [stepD] at h
    cases hc : s.findConn cid with
    | none =>
      simp only [hc, Option.some.injEq, Prod.mk.injEq] at h
      obtain ⟨h1, -⟩ := h
      exact h1 ▸ hu
    | some c =>
      simp only [hc] at h
      cases hr : roomListener s c data with
      | none => simp [hr] at h
      | some r =>
        obtain ⟨s2, c2, ds2⟩ := r
        simp only [hr, Option.map_some', Option.some.injEq, Prod.mk.injEq] at h
        obtain ⟨h1, -⟩ := h
        rw [← h1]
        have := roomListener_usernames hr
        simpa [usernamesUnique, ServerState.setConn, this] using hu
  | username cid uname =>
    simp only [stepD] at h
    cases hc : s.findConn cid with
    | none =>
      simp only [hc, Option.some.injEq, Prod.mk.injEq] at h
      obtain ⟨h1, -⟩ := h
      exact h1 ▸ hu
    | some c =>
      simp only [hc] at h
      exact usernameListener_unique hu h
  | listUsers cid =>
    simp only [stepD] at h
    cases hc : s.findConn cid <;>
    · simp only [hc, Option.some.injEq, Prod.mk.injEq] at h
      obtain ⟨h1, -⟩ := h
      exact h1 ▸ hu
  | disconnect cid =>
    simp only [stepD, Option.some.injEq, Prod.mk.injEq] at h
    obtain ⟨h1, -⟩ := h
    rw [← h1]
    simp only [usernamesUnique]
    exact List.Nodup.sublist
      (List.Sublist.map (fun user => user.username) (List.filter_sublist s.users)) hu

/-- Username uniqueness is preserved by `step`. -/
lemma step_preserves_unique {s s' : ServerState} {e : Event}
    (hn : ∀ cid u, e ≠ .handshake cid false u)
    (hu : usernamesUnique s) (h : step s e = some s') : usernamesUnique s' := by
  rw [step] at h
  cases hd : stepD s e with
  | none => simp [hd] at h
  | some r =>
    obtain ⟨s1, ds⟩ := r
    simp only [hd, Option.map_some', Option.some.injEq] at h
    exact h ▸ stepD_preserves_unique hn hu hd

lemma runEvents_preserves_unique :
    ∀ (es : List Event) (s s' : ServerState), usernamesUnique s →
      (∀ cid u, Event.handshake cid false u ∉ es) →
      runEvents s es = some s' → usernamesUnique s'
  | [], s, s', hu, _, h => by
    simp only [runEvents, Option.some.injEq] at h
    exact h ▸ hu
  | e :: es, s, s', hu, hn, h => by
    simp only [runEvents] at h
    cases hs : step s e with
    | none => simp [hs] at h
    | some s1 =>
      simp only [hs] at h
      have h1 : usernamesUnique s1 := by
        refine step_preserves_unique ?_ hu hs
        intro cid u he
        exact hn cid u (he ▸ List.mem_cons_self e es)
      exact runEvents_preserves_unique es s1 s' h1
        (fun cid u hm => hn cid u (List.mem_cons_of_mem e hm)) h

/-- C1 (counterexample): the uniqueness invariant as claimed — over sequences
that may contain `first:false` handshakes — is false: after `c1` registers as
"alice" with an initial handshake, a reconnection handshake from `c2` with
the same name registers unconditionally (server.js lines 69-79), leaving two
simultaneously-registered users named "alice". -/
theorem c1_duplicate_username_reachable :
    ∃ s : ServerState,
      runEvents initState
        [.connect "c1", .handshake "c1" true "alice",
         .connect "c2", .handshake "c2" false "alice"] = some s ∧
      ¬ usernamesUnique s :=
  ⟨{ users := [{ id := "c1", username := "alice", rooms := ["c1", "default"] },
               { id := "c2", username := "alice", rooms := ["c2", "default"] }],
     rooms := [{ name := "default", createdBy := "system" }],
     conns := [{ id := "c1", rooms := ["c1", "default"], handshook := true },
               { id := "c2", rooms := ["c2", "default"], handshook := true }] },
   by decide, by decide⟩

/-- C1 (amended): in every server registry state reachable by a sequence of
connect, initial (`first:true`) handshake, rename, room, message and
disconnect events — i.e. excluding reconnection (`first:false`) handshakes,
which register unconditionally — no two simultaneously-registered Users share
a username (case-sensitive exact match). -/
theorem c1_usernames_unique_without_reconnect (es : List Event)
    (hfirst : ∀ cid u, Event.handshake cid false u ∉ es)
    (s : ServerState) (h : runEvents initState es = some s) :
    usernamesUnique s :=
  runEvents_preserves_unique es initState s (by decide) hfirst h

/-- Witness for C1's amended theorem: the two-event run
`connect c1; handshake(first:true, "alice")` reaches a state with a unique
username list. -/
theorem c1_usernames_unique_without_reconnect_witness :
    usernamesUnique
      { users := [{ id := "c1", username := "alice", rooms := ["c1", "default"] }],
        rooms := [{ name := "default", createdBy := "system" }],
        conns := [{ id := "c1", rooms := ["c1", "default"], handshook := true }] } :=
  c1_usernames_unique_without_reconnect
    [.connect "c1", .handshake "c1" true "alice"]
    (by intro cid u hmem; simp at hmem)
    _ (by decide)

/-- C2: for an initial handshake `{first:true, username:u}` from a freshly
connected socket (member of its id-room and `default` only): if no registered
User holds `u`, the server appends the registration, unicasts a `confirm`
handshake response to the connection's id-room, and broadcasts the notice
"[u] has joined [#default]!" to the `default` room; otherwise it leaves the
registry unchanged and unicasts only a `denied` handshake response with
reason "Username already exists" to that connection. -/
theorem c2_initial_handshake_postcondition (s : ServerState) (c : Conn) (u : String)
    (hrooms : c.rooms = [c.id, "default"]) (hid : c.id ≠ "default") :
    ((s.users.find? (fun user => user.username == u)).isNone →
      handleHandshake s c true u =
        ({ s with users := s.users ++ [{ id := c.id, username := u, rooms := c.rooms }] },
         [{ room := c.id, event := .handshake "confirm" none },
          { room := "default",
            event := .message (.notice s!"[{u}] has joined [#default]!") }]))
    ∧ (¬ (s.users.find? (fun user => user.username == u)).isNone →
      handleHandshake s c true u =
        (s, [{ room := c.id,
               event := .handshake "denied" (some "Username already exists") }])) := by
  constructor
  · intro hq
    unfold handleHandshake handleSend
    rw [hrooms]
    simp only [hq, if_true, List.filter_cons, List.filter_nil, bne_self_eq_false,
      Bool.false_eq_true, if_false]
    have hbne : ("default" != c.id) = true := by
      simp [bne_iff_ne]
      exact fun he => hid he.symm
    simp [hbne]
  · intro hq
    unfold handleHandshake
    cases hfind : s.users.find? (fun user => user.username == u) with
    | none => exact absurd (by rw [hfind]; rfl) hq
    | some q => simp [hfind]

/-- Witness for C2: a fresh connection `c1` registering as "alice" on the
empty registry gets a confirm and the default-room join notice. -/
theorem c2_initial_handshake_postcondition_witness :
    handleHandshake initState { id := "c1", rooms := ["c1", "default"], handshook := false }
        true "alice" =
      ({ initState with
          users := [{ id := "c1", username := "alice", rooms := ["c1", "default"] }] },
       [{ room := "c1", event := .handshake "confirm" none },
        { room := "default",
          event := .message (.notice "[alice] has joined [#default]!") }]) :=
  (c2_initial_handshake_postcondition initState
      { id := "c1", rooms := ["c1", "default"], handshook := false } "alice"
      rfl (by decide)).1 (by decide)

/-- C3 (counterexample): with only "alice" registered (held by connection
`c1` itself), `c1`'s request to rename to "alice" — its own current username
— is denied by the `username` listener (server.js line 222 matches any user,
the caller included), although no *different* connection holds "alice"; the
claim says such a rename succeeds. -/
theorem c3_self_rename_denied :
    usernameListener
        { users := [{ id := "c1", username := "alice", rooms := ["c1", "default"] }],
          rooms := [{ name := "default", createdBy := "system" }],
          conns := [{ id := "c1", rooms := ["c1", "default"], handshook := true }] }
        { id := "c1", rooms := ["c1", "default"], handshook := true } "alice" =
      some ({ users := [{ id := "c1", username := "alice", rooms := ["c1", "default"] }],
              rooms := [{ name := "default", createdBy := "system" }],
              conns := [{ id := "c1", rooms := ["c1", "default"], handshook := true }] },
            [{ room := "c1", event := .username "denied" none },
             { room := "c1",
               event := .message (.notice "[alice] is currently used by another user!") }])
    ∧ ∀ user ∈ [{ id := "c1", username := "alice",
                  rooms := ["c1", "default"] : User }],
        user.username = "alice" → user.id = "c1" := by
  constructor
  · decide
  · decide

/-- C3 (amended): a rename request is denied — with the registry left
completely unchanged — iff the requested name is already held by *any*
registered user, the caller included (so renaming to one's own current
username is denied, not a successful no-op); otherwise, for a registered
caller, the caller's username field is updated and a rename notice plus a
confirm are emitted. -/
theorem c3_rename_semantics (s : ServerState) (c : Conn) (u : String)
    (i : Nat) (user : User) :
    ((∀ q, s.users.find? (fun v => u == v.username) = some q →
      usernameListener s c u =
        some (s, [{ room := c.id, event := .username "denied" none },
                  { room := c.id,
                    event := .message (.notice s!"[{u}] is currently used by another user!") }])))
    ∧ (s.users.find? (fun v => u == v.username) = none →
       s.users.findIdx? (fun v => v.id == c.id) = some i →
       s.users[i]? = some user →
      usernameListener s c u =
        some ({ s with users := s.users.set i { user with username := u } },
          handleSend c (.notice s!"[{user.username}] change their name to [{u}]!") ++
            [{ room := c.id, event := .username "confirm" (some u) }])) := by
  constructor
  · intro q hq
    unfold usernameListener
    rw [hq]
  · intro hq hidx hget
    unfold usernameListener handleChangeUsername
    simp [hq, hidx, hget]

/-- Witness for C3's amended theorem: with only "alice" registered at `c1`,
renaming `c1` to the free name "bob" succeeds and updates the registry
entry. -/
theorem c3_rename_semantics_witness :
    usernameListener
        { users := [{ id := "c1", username := "alice", rooms := ["c1", "default"] }],
          rooms := [{ name := "default", createdBy := "system" }],
          conns := [{ id := "c1", rooms := ["c1", "default"], handshook := true }] }
        { id := "c1", rooms := ["c1", "default"], handshook := true } "bob" =
      some ({ users := [{ id := "c1", username := "bob", rooms := ["c1", "default"] }],
              rooms := [{ name := "default", createdBy := "system" }],
              conns := [{ id := "c1", rooms := ["c1", "default"], handshook := true }] },
            [{ room := "default",
               event := .message (.notice "[alice] change their name to [bob]!") },
             { room := "c1", event := .username "confirm" (some "bob") }]) :=
  (c3_rename_semantics
      { users := [{ id := "c1", username := "alice", rooms := ["c1", "default"] }],
        rooms := [{ name := "default", createdBy := "system" }],
        conns := [{ id := "c1", rooms := ["c1", "default"], handshook := true }] }
      { id := "c1", rooms := ["c1", "default"], handshook := true } "bob"
      0 { id := "c1", username := "alice", rooms := ["c1", "default"] }).2
    (by decide) (by decide) (by decide)

lemma exists_findIdx?_getElem? {α : Type} {p : α → Bool} {l : List α}
    (h : l.any p = true) : ∃ i u, l.findIdx? p = some i ∧ l[i]? = some u := by
  have hs : (l.findIdx? p).isSome := by rw [List.findIdx?_isSome]; exact h
  obtain ⟨i, hi⟩ := Option.isSome_iff_exists.mp hs
  have hlt := (List.findIdx?_eq_some_iff_findIdx_eq.mp hi).1
  refine ⟨i, l.get ⟨i, hlt⟩, hi, ?_⟩
  rw [List.getElem?_eq_getElem hlt]
  simp [List.get_eq_getElem]

/-- C4 (counterexample): failure isolation fails for connections without a
registry entry: a connection that connects and sends a `room` (or `username`)
request before any handshake makes the handler throw — `findIndex` returns
-1 and `users[-1].username` is a TypeError (server.js lines 119-122 and
152-155), modelled as `none`, an uncaught exception in the server's event
loop. -/
theorem c4_unregistered_connection_crashes :
    runEvents initState [.connect "c1", .room "c1" (some "foo")] = none ∧
    runEvents initState [.connect "c1", .username "c1" "bob"] = none := by
  constructor
  · decide
  · decide

/-- C4 (amended): the room-change and username-change handlers complete
without throwing whenever the requesting connection has a registered User
entry; the `send`, `whisper` and `list_users` handlers are total
unconditionally (they return plain delivery lists by type).  Only a
connection with no registry entry can crash them. -/
theorem c4_handlers_total_for_registered (s : ServerState) (c : Conn)
    (h : s.users.any (fun user => user.id == c.id) = true) :
    (∀ data, (roomListener s c data).isSome) ∧
    (∀ u, (usernameListener s c u).isSome) := by
  obtain ⟨i, user, hidx, hget⟩ := exists_findIdx?_getElem? h
  constructor
  · intro data
    simp only [roomListener]
    split
    · unfold handleChangeRoom
      simp [hidx, hget]
    · unfold handleNewRoom handleChangeRoom
      simp [hidx, hget]
  · intro u
    unfold usernameListener
    cases hq : s.users.find? (fun v => u == v.username) with
    | none =>
      unfold handleChangeUsername
      simp [hidx, hget]
    | some q => simp

/-- Witness for C4's amended theorem: with "alice" registered at `c1`, both a
room change and a rename request from `c1` complete. -/
theorem c4_handlers_total_for_registered_witness :
    (roomListener
        { users := [{ id := "c1", username := "alice", rooms := ["c1", "default"] }],
          rooms := [{ name := "default", createdBy := "system" }],
          conns := [{ id := "c1", rooms := ["c1", "default"], handshook := true }] }
        { id := "c1", rooms := ["c1", "default"], handshook := true }
        (some "foo")).isSome ∧
    (usernameListener
        { users := [{ id := "c1", username := "alice", rooms := ["c1", "default"] }],
          rooms := [{ name := "default", createdBy := "system" }],
          conns := [{ id := "c1", rooms := ["c1", "default"], handshook := true }] }
        { id := "c1", rooms := ["c1", "default"], handshook := true } "bob").isSome :=
  ⟨(c4_handlers_total_for_registered
      { users := [{ id := "c1", username := "alice", rooms := ["c1", "default"] }],
        rooms := [{ name := "default", createdBy := "system" }],
        conns := [{ id := "c1", rooms := ["c1", "default"], handshook := true }] }
      { id := "c1", rooms := ["c1", "default"], handshook := true }
      (by decide)).1 (some "foo"),
   (c4_handlers_total_for_registered
      { users := [{ id := "c1", username := "alice", rooms := ["c1", "default"] }],
        rooms := [{ name := "default", createdBy := "system" }],
        conns := [{ id := "c1", rooms := ["c1", "default"], handshook := true }] }
      { id := "c1", rooms := ["c1", "default"], handshook := true }
      (by decide)).2 "bob"⟩

/-- C5 (counterexample): src/client.js registers no timeout around the
initial-handshake wait; when no handshake response ever arrives, that client
waits forever instead of reporting a handshake timeout and exiting. -/
theorem c5_clientjs_waits_forever :
    handshakeWait clientJsHandshakeTimeout none = .waitsForever ∧
    handshakeWait clientJsHandshakeTimeout none ≠ .exits "Handshake timed out!" := by
  constructor
  · decide
  · decide

/-- C5 (amended): the client variant in src/unnamed/part_000 (second copy,
lines 386-411) bounds the initial-handshake wait with a 5000 ms timeout: its
wait never lasts forever, and when no response arrives it reports
"Handshake timed out!" and exits; the src/client.js client, by contrast,
arms no timeout and can wait forever. -/
theorem c5_part000_handshake_wait_bounded :
    (∀ response, handshakeWait part000HandshakeTimeout response ≠ .waitsForever) ∧
    handshakeWait part000HandshakeTimeout none = .exits "Handshake timed out!" := by
  constructor
  · intro response
    have hb : ∀ ty, clientHandshakeBranch ty ≠ .waitsForever := by
      intro ty
      unfold clientHandshakeBranch
      split <;> simp
    cases response with
    | none => decide
    | some p =>
      obtain ⟨t, type⟩ := p
      simp only [part000HandshakeTimeout, handshakeWait]
      split
      · exact hb type
      · simp
  · decide

/-- Witness for C5's amended theorem: a response arriving at 6000 ms (after
the 5000 ms deadline) still does not leave the client waiting forever — the
timeout fires. -/
theorem c5_part000_handshake_wait_bounded_witness :
    handshakeWait part000HandshakeTimeout (some (6000, "confirm")) ≠ .waitsForever ∧
    handshakeWait part000HandshakeTimeout none = .exits "Handshake timed out!" :=
  ⟨c5_part000_handshake_wait_bounded.1 (some (6000, "confirm")),
   c5_part000_handshake_wait_bounded.2⟩

lemma joinRoom_fresh (c : Conn) (t : String) (hne : t ≠ c.id) :
    (({ c with rooms := [] }).joinRoom c.id).joinRoom t =
      { c with rooms := [c.id, t] } := by
  have hne' : c.id ≠ t := fun he => hne he.symm
  unfold Conn.joinRoom
  simp [hne, hne']

/-- C6: a `room` request resolves an absent or empty room argument to
`default`; on a request from a registered connection for a target room other
than the connection's own id-room, the listener succeeds, the room directory
contains the target afterwards (appended with the requester as creator when
it was absent), the requester's membership — both transport-side and in the
registry entry — becomes exactly [private id-room, target] with the previous
room removed, and a join notice is broadcast to the target room. -/
theorem c6_room_change_postcondition (s : ServerState) (c : Conn) (data : Option String)
    (i : Nat) (user : User)
    (hidx : s.users.findIdx? (fun v => v.id == c.id) = some i)
    (hget : s.users[i]? = some user)
    (hne : targetRoomOf data ≠ c.id) :
    (targetRoomOf none = "default" ∧ targetRoomOf (some "") = "default") ∧
    ∃ s' c' ds,
      roomListener s c data = some (s', c', ds) ∧
      (s'.rooms.any (fun room => room.name == targetRoomOf data)) = true ∧
      ((s.rooms.any (fun room => room.name == targetRoomOf data)) = false →
        s'.rooms = s.rooms ++ [{ name := targetRoomOf data, createdBy := c.id }]) ∧
      c'.rooms = [c.id, targetRoomOf data] ∧
      s'.users = s.users.set i { user with rooms := [c.id, targetRoomOf data] } ∧
      { room := targetRoomOf data,
        event := .message
          (.notice s!"[{user.username}] has joined [#{targetRoomOf data}]!") } ∈ ds := by
  have hcr : ∀ sb : ServerState, sb.users = s.users →
      handleChangeRoom sb c (targetRoomOf data) =
        some ({ sb with users :=
                  s.users.set i { user with rooms := [c.id, targetRoomOf data] } },
              { c with rooms := [c.id, targetRoomOf data] },
              [{ room := targetRoomOf data,
                 event := .message
                   (.notice s!"[{user.username}] has joined [#{targetRoomOf data}]!") }]) := by
    intro sb hsb
    simp only [handleChangeRoom, joinRoom_fresh c _ hne, hsb, hidx, hget]
  refine ⟨⟨rfl, rfl⟩, ?_⟩
  by_cases hex : (s.rooms.any (fun room => room.name == targetRoomOf data)) = true
  · refine ⟨{ s with users :=
        (s.users.set i ({ user with rooms := [c.id, targetRoomOf data] })) },
      { c with rooms := [c.id, targetRoomOf data] },
      [{ room := targetRoomOf data,
         event := .message
           (.notice s!"[{user.username}] has joined [#{targetRoomOf data}]!") }],
      ?_, ?_, ?_, rfl, rfl, ?_⟩
    · simp only [roomListener, hex, if_true]
      exact hcr s rfl
    · exact hex
    · intro hcon
      rw [hcon] at hex
      cases hex
    · exact List.mem_singleton.mpr rfl
  · refine ⟨{ s with
        rooms := (s.rooms ++ [{ name := targetRoomOf data, createdBy := c.id }]),
        users := (s.users.set i ({ user with rooms := [c.id, targetRoomOf data] })) },
      { c with rooms := [c.id, targetRoomOf data] },
      [{ room := c.id,
         event := .message
           (.notice s!"New room is created by the name [#{targetRoomOf data}]!") },
       { room := targetRoomOf data,
         event := .message
           (.notice s!"[{user.username}] has joined [#{targetRoomOf data}]!") }],
      ?_, ?_, ?_, rfl, rfl, ?_⟩
    · simp only [roomListener, handleNewRoom, hex, Bool.false_eq_true, if_false]
      rw [hcr { s with rooms :=
            s.rooms ++ [{ name := targetRoomOf data, createdBy := c.id }] } rfl]
      rfl
    · simp
    · intro _
      rfl
    · exact List.mem_cons_of_mem _ (List.mem_singleton.mpr rfl)

/-- Witness for C6: with "alice" registered at `c1` and the directory holding
only `default`, a request for "foo" creates the room and moves alice into
exactly [her id-room, "foo"]. -/
theorem c6_room_change_postcondition_witness :
    (targetRoomOf none = "default" ∧ targetRoomOf (some "") = "default") ∧
    ∃ s' c' ds,
      roomListener
          { users := [{ id := "c1", username := "alice", rooms := ["c1", "default"] }],
            rooms := [{ name := "default", createdBy := "system" }],
            conns := [{ id := "c1", rooms := ["c1", "default"], handshook := true }] }
          { id := "c1", rooms := ["c1", "default"], handshook := true }
          (some "foo") = some (s', c', ds) ∧
      (s'.rooms.any (fun room => room.name == targetRoomOf (some "foo"))) = true ∧
      (([({ name := "default", createdBy := "system" } :
          Room)]).any (fun room => room.name == targetRoomOf (some "foo")) = false →
        s'.rooms = [{ name := "default", createdBy := "system" }] ++
          [{ name := targetRoomOf (some "foo"), createdBy := "c1" }]) ∧
      c'.rooms = ["c1", targetRoomOf (some "foo")] ∧
      s'.users = ([({ id := "c1", username := "alice", rooms := ["c1", "default"] } :
          User)]).set 0
        ({ id := "c1", username := "alice", rooms := ["c1", targetRoomOf (some "foo")] }) ∧
      { room := targetRoomOf (some "foo"),
        event := .message
          (.notice "[alice] has joined [#foo]!") } ∈ ds :=
  c6_room_change_postcondition
    { users := [{ id := "c1", username := "alice", rooms := ["c1", "default"] }],
      rooms := [{ name := "default", createdBy := "system" }],
      conns := [{ id := "c1", rooms := ["c1", "default"], handshook := true }] }
    { id := "c1", rooms := ["c1", "default"], handshook := true }
    (some "foo") 0 { id := "c1", username := "alice", rooms := ["c1", "default"] }
    (by decide) (by decide) (by decide)

/-- C7: provided no connection sits in another party's private id-room (the
id-rooms are used only to address their owners), a whisper whose target
username resolves in the registry produces exactly one delivery — the
`tell{from,to,message}` to the target's id-room — and only the target
connection can receive it; a whisper whose target does not resolve produces
exactly one delivery — an error notice to the sender's id-room — and only the
sender can receive it. -/
theorem c7_whisper_routing (s : ServerState) (c : Conn) (fromU toU msg : String)
    (hpriv : ∀ cx ∈ s.conns, ∀ v ∈ s.users, v.id ∈ cx.rooms → cx.id = v.id)
    (hself : ∀ cx ∈ s.conns, c.id ∈ cx.rooms → cx.id = c.id) :
    (∀ q, s.users.find? (fun v => v.username == toU) = some q →
      handleWhisper s c fromU toU msg =
        [{ room := q.id, event := .message (.tell fromU toU msg) }] ∧
      ∀ cx ∈ s.conns,
        deliveredTo (handleWhisper s c fromU toU msg) cx = true → cx.id = q.id)
    ∧ (s.users.find? (fun v => v.username == toU) = none →
      handleWhisper s c fromU toU msg =
        [{ room := c.id,
           event := .message (.notice s!"No user found with the username [{toU}]!") }] ∧
      ∀ cx ∈ s.conns,
        deliveredTo (handleWhisper s c fromU toU msg) cx = true → cx.id = c.id) := by
  constructor
  · intro q hq
    have he : handleWhisper s c fromU toU msg =
        [{ room := q.id, event := .message (.tell fromU toU msg) }] := by
      unfold handleWhisper
      rw [hq]
    refine ⟨he, ?_⟩
    intro cx hcx hdel
    rw [he] at hdel
    simp [deliveredTo] at hdel
    exact hpriv cx hcx q (List.mem_of_find?_eq_some hq) hdel
  · intro hq
    have he : handleWhisper s c fromU toU msg =
        [{ room := c.id,
           event := .message (.notice s!"No user found with the username [{toU}]!") }] := by
      unfold handleWhisper
      rw [hq]
    refine ⟨he, ?_⟩
    intro cx hcx hdel
    rw [he] at hdel
    simp [deliveredTo] at hdel
    exact hself cx hcx hdel

/-- Witness for C7: with alice at `c1` and bob at `c2`, each in their own
id-room plus `default`, alice's whisper to "bob" is a single tell addressed
to `c2`'s id-room. -/
theorem c7_whisper_routing_witness :
    handleWhisper
        { users := [{ id := "c1", username := "alice", rooms := ["c1", "default"] },
                    { id := "c2", username := "bob", rooms := ["c2", "default"] }],
          rooms := [{ name := "default", createdBy := "system" }],
          conns := [{ id := "c1", rooms := ["c1", "default"], handshook := true },
                    { id := "c2", rooms := ["c2", "default"], handshook := true }] }
        { id := "c1", rooms := ["c1", "default"], handshook := true }
        "alice" "bob" "hi" =
      [{ room := "c2", event := .message (.tell "alice" "bob" "hi") }] :=
  ((c7_whisper_routing
      { users := [{ id := "c1", username := "alice", rooms := ["c1", "default"] },
                  { id := "c2", username := "bob", rooms := ["c2", "default"] }],
        rooms := [{ name := "default", createdBy := "system" }],
        conns := [{ id := "c1", rooms := ["c1", "default"], handshook := true },
                  { id := "c2", rooms := ["c2", "default"], handshook := true }] }
      { id := "c1", rooms := ["c1", "default"], handshook := true }
      "alice" "bob" "hi" (by decide) (by decide)).1
    { id := "c2", username := "bob", rooms := ["c2", "default"] } (by decide)).1

/-- C8: a chat `send` from connection `c` (client payload
`{type:'chat', message, username}`) is delivered to every connection sharing
a chat room `r` with the sender (any joined room other than the sender's
id-room); a client whose local username differs from the chat's username
displays it, while the sender's own client — same local username — suppresses
the network copy; and any connection that receives the chat shares at least
one non-id chat room with the sender, so members of rooms the sender has not
joined receive nothing. -/
theorem c8_chat_send_routing (c : Conn) (uA m r : String)
    (hr : r ∈ c.rooms) (hrne : r ≠ c.id) :
    (∀ cx : Conn, r ∈ cx.rooms →
      deliveredTo (handleSend c (.chat uA m)) cx = true) ∧
    (∀ lc, lc ≠ uA →
      clientDisplayMessage lc (.chat uA m) = some (s!"<{uA}> " ++ m)) ∧
    (∀ cx : Conn, deliveredTo (handleSend c (.chat uA m)) cx = true →
      ∃ room ∈ cx.rooms, room ∈ c.rooms ∧ room ≠ c.id) ∧
    clientDisplayMessage uA (.chat uA m) = none := by
  refine ⟨?_, ?_, ?_, ?_⟩
  · intro cx hcx
    simp only [deliveredTo, handleSend, List.any_eq_true]
    refine ⟨{ room := r, event := .message (.chat uA m) }, ?_, ?_⟩
    · exact List.mem_map.mpr ⟨r, List.mem_filter.mpr ⟨hr, by simp [hrne]⟩, rfl⟩
    · simpa using hcx
  · intro lc hlc
    unfold clientDisplayMessage
    simp [bne_iff_ne]
    exact fun he => hlc he.symm
  · intro cx hdel
    simp only [deliveredTo, handleSend, List.any_eq_true] at hdel
    obtain ⟨d, hd, hc⟩ := hdel
    obtain ⟨room, hroom, rfl⟩ := List.mem_map.mp hd
    obtain ⟨hmem, hne⟩ := List.mem_filter.mp hroom
    refine ⟨room, by simpa using hc, hmem, ?_⟩
    simpa [bne_iff_ne] using hne
  · unfold clientDisplayMessage
    simp

/-- Witness for C8: a sender in [its id-room, `default`] chatting into
`default`: another member of `default` receives it, a client named "bob"
displays it, and the sender's own client suppresses it. -/
theorem c8_chat_send_routing_witness :
    deliveredTo
      (handleSend { id := "c1", rooms := ["c1", "default"], handshook := true }
        (.chat "alice" "hi"))
      { id := "c2", rooms := ["c2", "default"], handshook := true } = true ∧
    clientDisplayMessage "bob" (.chat "alice" "hi") = some "<alice> hi" ∧
    clientDisplayMessage "alice" (.chat "alice" "hi") = none :=
  ⟨(c8_chat_send_routing { id := "c1", rooms := ["c1", "default"], handshook := true }
      "alice" "hi" "default" (by decide) (by decide)).1
    { id := "c2", rooms := ["c2", "default"], handshook := true } (by decide),
   (c8_chat_send_routing { id := "c1", rooms := ["c1", "default"], handshook := true }
      "alice" "hi" "default" (by decide) (by decide)).2.1 "bob" (by decide),
   (c8_chat_send_routing { id := "c1", rooms := ["c1", "default"], handshook := true }
      "alice" "hi" "default" (by decide) (by decide)).2.2.2⟩

/-- C9: every delivery of `handleListUsers` is addressed to the requester's
id-room (so, when no other connection sits in that room, the requester alone
receives them); there is one notice line for each (registered user, joined
room) pair with the user's own id-room excluded — every such pair produces
its line, every delivered line comes from such a pair, and the number of
deliveries equals the total count of such pairs. -/
theorem c9_list_users (s : ServerState) (c : Conn)
    (hself : ∀ cx ∈ s.conns, c.id ∈ cx.rooms → cx.id = c.id) :
    (∀ d ∈ handleListUsers s c, d.room = c.id) ∧
    (∀ cx ∈ s.conns, deliveredTo (handleListUsers s c) cx = true → cx.id = c.id) ∧
    (∀ user ∈ s.users, ∀ room ∈ user.rooms, room ≠ user.id →
      { room := c.id,
        event := .message
          (.notice s!"({user.id}) => <{user.username}> @ [#{room}]") } ∈
        handleListUsers s c) ∧
    (∀ d ∈ handleListUsers s c, ∃ user ∈ s.users, ∃ room ∈ user.rooms,
      room ≠ user.id ∧
      d = { room := c.id,
            event := .message
              (.notice s!"({user.id}) => <{user.username}> @ [#{room}]") }) ∧
    (handleListUsers s c).length =
      (s.users.map
        (fun user => (user.rooms.filter (fun room => room != user.id)).length)).sum := by
  have hroom : ∀ d ∈ handleListUsers s c, d.room = c.id := by
    intro d hd
    obtain ⟨user, -, hd2⟩ := List.mem_flatMap.mp hd
    obtain ⟨room, -, rfl⟩ := List.mem_map.mp hd2
    rfl
  refine ⟨hroom, ?_, ?_, ?_, ?_⟩
  · intro cx hcx hdel
    simp only [deliveredTo, List.any_eq_true] at hdel
    obtain ⟨d, hd, hc⟩ := hdel
    rw [hroom d hd] at hc
    exact hself cx hcx (by simpa using hc)
  · intro user huser room hmem hne
    refine List.mem_flatMap.mpr ⟨user, huser, ?_⟩
    exact List.mem_map.mpr ⟨room, List.mem_filter.mpr ⟨hmem, by simp [bne_iff_ne, hne]⟩, rfl⟩
  · intro d hd
    obtain ⟨user, huser, hd2⟩ := List.mem_flatMap.mp hd
    obtain ⟨room, hroom2, rfl⟩ := List.mem_map.mp hd2
    obtain ⟨hmem, hne⟩ := List.mem_filter.mp hroom2
    exact ⟨user, huser, room, hmem, by simpa [bne_iff_ne] using hne, rfl⟩
  · unfold handleListUsers
    rw [List.length_flatMap]
    congr 1
    apply List.map_congr_left
    intro u _
    simp

/-- Witness for C9: with alice in `default` and bob in `foo`, a `list_users`
request from `c1` yields exactly two notice lines, both to `c1`'s id-room. -/
theorem c9_list_users_witness :
    (handleListUsers
        { users := [{ id := "c1", username := "alice", rooms := ["c1", "default"] },
                    { id := "c2", username := "bob", rooms := ["c2", "foo"] }],
          rooms := [{ name := "default", createdBy := "system" },
                    { name := "foo", createdBy := "c2" }],
          conns := [{ id := "c1", rooms := ["c1", "default"], handshook := true },
                    { id := "c2", rooms := ["c2", "foo"], handshook := true }] }
        { id := "c1", rooms := ["c1", "default"], handshook := true }).length = 2 :=
  ((c9_list_users
      { users := [{ id := "c1", username := "alice", rooms := ["c1", "default"] },
                  { id := "c2", username := "bob", rooms := ["c2", "foo"] }],
        rooms := [{ name := "default", createdBy := "system" },
                  { name := "foo", createdBy := "c2" }],
        conns := [{ id := "c1", rooms := ["c1", "default"], handshook := true },
                  { id := "c2", rooms := ["c2", "foo"], handshook := true }] }
      { id := "c1", rooms := ["c1", "default"], handshook := true }
      (by decide)).2.2.2.2).trans (by decide)

lemma find?_append_of_none {α : Type} {p : α → Bool} {l1 l2 : List α}
    (h : l1.find? p = none) : (l1 ++ l2).find? p = l2.find? p := by
  rw [List.find?_append, h, Option.none_or]

/-- C10 (implicit): the server joins every newly connected socket to the
`default` room before any handshake (server.js line 189) and dispatches its
`send`, `whisper` and `list_users` events with no check of handshake state
(lines 197-204, 235-237): a fresh connection — no handshake at all — already
sits in `default` and its chat `send` is broadcast there; and after a
*denied* initial handshake the connection remains in `default` with its chat
still broadcast. -/
theorem c10_prehandshake_send_broadcasts (s : ServerState) (cid : String)
    (hfresh : s.conns.any (fun cx => cx.id == cid) = false)
    (hcid : cid ≠ "default") (u m : String) :
    ∃ s1, step s (.connect cid) = some s1 ∧
      s1.users = s.users ∧
      s1.findConn cid = some { id := cid, rooms := [cid, "default"], handshook := false } ∧
      stepD s1 (.send cid (.chat u m)) =
        some (s1, [{ room := "default", event := .message (.chat u m) }]) ∧
      (∀ s2 c2 data, s2.findConn cid = some c2 →
        stepD s2 (.send cid data) = some (s2, handleSend c2 data)) ∧
      (∀ s2 c2 fu tu mm, s2.findConn cid = some c2 →
        stepD s2 (.whisper cid fu tu mm) = some (s2, handleWhisper s2 c2 fu tu mm)) ∧
      (∀ s2 c2, s2.findConn cid = some c2 →
        stepD s2 (.listUsers cid) = some (s2, handleListUsers s2 c2)) ∧
      (∀ uname, (s.users.find? (fun v => v.username == uname)).isSome →
        ∃ s2, step s1 (.handshake cid true uname) = some s2 ∧
          s2.users = s1.users ∧
          s2.findConn cid =
            some { id := cid, rooms := [cid, "default"], handshook := true } ∧
          stepD s2 (.send cid (.chat u m)) =
            some (s2, [{ room := "default", event := .message (.chat u m) }])) := by
  have hfreshAll := List.any_eq_false.mp hfresh
  have hnofind : s.conns.find? (fun cx => cx.id == cid) = none :=
    List.find?_eq_none.mpr (fun x hx => by simp [hfreshAll x hx])
  refine ⟨{ s with conns := s.conns ++
      [{ id := cid, rooms := [cid, "default"], handshook := false }] },
    ?_, rfl, ?_, ?_, ?_, ?_, ?_, ?_⟩
  · simp [step, stepD, hfresh]
  · unfold ServerState.findConn
    rw [find?_append_of_none hnofind]
    simp
  · have hfc : ServerState.findConn
        { s with conns := s.conns ++
          [{ id := cid, rooms := [cid, "default"], handshook := false }] } cid =
        some { id := cid, rooms := [cid, "default"], handshook := false } := by
      unfold ServerState.findConn
      rw [find?_append_of_none hnofind]
      simp
    simp only [stepD, hfc]
    unfold handleSend
    have : (["default"] : List String).filter (fun room => room != cid) = ["default"] := by
      simp [bne_iff_ne]
      exact fun he => hcid he.symm
    simp [List.filter_cons, this]
  · intro s2 c2 data h
    simp [stepD, h]
  · intro s2 c2 fu tu mm h
    simp [stepD, h]
  · intro s2 c2 h
    simp [stepD, h]
  · intro uname hq
    have hfc : ServerState.findConn
        { s with conns := s.conns ++
          [{ id := cid, rooms := [cid, "default"], handshook := false }] } cid =
        some { id := cid, rooms := [cid, "default"], handshook := false } := by
      unfold ServerState.findConn
      rw [find?_append_of_none hnofind]
      simp
    obtain ⟨q, hq'⟩ := Option.isSome_iff_exists.mp hq
    have hmap : List.map
        (fun x : Conn => if x.id == cid
          then ({ id := cid, rooms := [cid, "default"], handshook := true } : Conn)
          else x)
        (s.conns ++ [{ id := cid, rooms := [cid, "default"], handshook := false }]) =
        s.conns ++ [{ id := cid, rooms := [cid, "default"], handshook := true }] := by
      rw [List.map_append]
      congr 1
      · refine (List.map_congr_left ?_).trans (List.map_id _)
        intro x hx
        simp [hfreshAll x hx]
      · simp
    refine ⟨{ s with conns := s.conns ++
        [{ id := cid, rooms := [cid, "default"], handshook := true }] },
      ?_, rfl, ?_, ?_⟩
    · simp only [step, stepD, hfc, Bool.false_eq_true, if_false]
      unfold handleHandshake
      rw [hq']
      simp only [Option.isNone_some, Bool.false_eq_true, if_false, Option.map_some']
      unfold ServerState.setConn
      simp only [Option.some.injEq]
      exact congrArg (fun l => { s with conns := l }) hmap
    · unfold ServerState.findConn
      rw [find?_append_of_none hnofind]
      simp
    · have hfc2 : ServerState.findConn
          { s with conns := s.conns ++
            [{ id := cid, rooms := [cid, "default"], handshook := true }] } cid =
          some { id := cid, rooms := [cid, "default"], handshook := true } := by
        unfold ServerState.findConn
        rw [find?_append_of_none hnofind]
        simp
      simp only [stepD, hfc2]
      unfold handleSend
      have : (["default"] : List String).filter (fun room => room != cid) = ["default"] := by
        simp [bne_iff_ne]
        exact fun he => hcid he.symm
      simp [List.filter_cons, this]

/-- Witness for C10: on a server with "alice" registered at `c1`, a brand-new
connection `c2` that never handshakes is joined to `default` on connect, is
not registered, and its chat `send` is broadcast to the `default` room. -/
theorem c10_prehandshake_send_broadcasts_witness :
    ∃ s1, step
        { users := [{ id := "c1", username := "alice", rooms := ["c1", "default"] }],
          rooms := [{ name := "default", createdBy := "system" }],
          conns := [{ id := "c1", rooms := ["c1", "default"], handshook := true }] }
        (.connect "c2") = some s1 ∧
      s1.users = [{ id := "c1", username := "alice", rooms := ["c1", "default"] }] ∧
      s1.findConn "c2" =
        some { id := "c2", rooms := ["c2", "default"], handshook := false } ∧
      stepD s1 (.send "c2" (.chat "mallory" "hi")) =
        some (s1, [{ room := "default", event := .message (.chat "mallory" "hi") }]) := by
  obtain ⟨s1, h1, h2, h3, h4, -⟩ :=
    c10_prehandshake_send_broadcasts
      { users := [{ id := "c1", username := "alice", rooms := ["c1", "default"] }],
        rooms := [{ name := "default", createdBy := "system" }],
        conns := [{ id := "c1", rooms := ["c1", "default"], handshook := true }] }
      "c2" (by decide) (by decide) "mallory" "hi"
  exact ⟨s1, h1, h2, h3, h4⟩

end Bridge
